import Mathlib

/-!
Verification of the BEARS-TP test harness (`TestHarness.py`).

This file shallowly embeds the `Packet` class and the `Forwarder` methods
(`_tick`, `_send`, `handle_receive`, `start`) of `TestHarness.py` in Lean.
Python strings are Lean `String`s (lists of characters); Python integers are
`Int`; a Python attribute that may never be assigned is an `Option`; Python
exceptions that escape a function are an explicit error component of the
result. The external `Checksum.generate_checksum` function (module not part
of the core source, consumed as an opaque collaborator) is a function
parameter `gen : String → String` throughout.
-/

/-- A network address, as Python's `(host, port)` tuple. -/
abbrev Address : Type := String × Int

/-- Python whitespace recognized by `int()` (stripped before parsing):
space, tab, newline, carriage return, vertical tab, form feed. -/
def pyIsSpace (c : Char) : Bool :=
  decide (c.toNat = 32) || decide (c.toNat = 9) || decide (c.toNat = 10) ||
  decide (c.toNat = 13) || decide (c.toNat = 11) || decide (c.toNat = 12)

/-- ASCII decimal digit test (codes 48–57). -/
def isDigitCh (c : Char) : Bool :=
  decide (48 ≤ c.toNat ∧ c.toNat ≤ 57)

/-- Numeric value of a string of ASCII digits, most significant first. -/
def digitsVal (l : List Char) : Nat :=
  l.foldl (fun a c => 10 * a + (c.toNat - 48)) 0

/-- Strip leading and trailing Python whitespace. -/
def pyTrim (l : List Char) : List Char :=
  ((l.dropWhile pyIsSpace).reverse.dropWhile pyIsSpace).reverse

/-- Core of Python 2 `int(str)` after whitespace stripping: an optional
sign followed by a nonempty run of decimal digits. -/
def pythonIntCore (l : List Char) : Option Int :=
  match l with
  | [] => none
  | c :: rest =>
    if c = '+' then
      if rest ≠ [] ∧ rest.all isDigitCh then some (digitsVal rest) else none
    else if c = '-' then
      if rest ≠ [] ∧ rest.all isDigitCh then some (-(digitsVal rest : Int)) else none
    else if (c :: rest).all isDigitCh then some (digitsVal (c :: rest)) else none

/-- Python 2 `int(s)` on a string: `some n` when the conversion succeeds,
`none` when it raises `ValueError`. -/
def pythonInt (s : String) : Option Int :=
  pythonIntCore (pyTrim s.data)

/-- Python `str.split(d)` on a character list: split on every occurrence of
the delimiter, keeping empty pieces; the empty string yields `[[]]`. -/
def splitCh : List Char → Char → List (List Char)
  | [], _ => [[]]
  | c :: cs, d =>
    match splitCh cs d with
    | [] => [[c]]
    | p :: ps => if c = d then [] :: p :: ps else (c :: p) :: ps

/-- Python `d.join(pieces)` on character lists. -/
def joinCh (d : Char) : List (List Char) → List Char
  | [] => []
  | [x] => x
  | x :: y :: ys => x ++ d :: joinCh d (y :: ys)

/-- `packet.split('|')` from `Packet.__init__`. -/
def pySplit (s : String) : List String :=
  (splitCh s.data '|').map String.mk

/-- `'|'.join(pieces)` from `Packet.__init__`. -/
def pyJoinPipe (l : List String) : String :=
  String.mk (joinCh '|' (l.map String.data))

/-- The ASCII digit character for `n < 10`. -/
def digitChar (n : Nat) : Char := Char.ofNat (48 + n)

/-- Decimal digits of `n`, most significant first, with explicit fuel
(any fuel `> n` suffices). -/
def natDigits : Nat → Nat → List Char
  | 0, _ => []
  | fuel + 1, n =>
    if n < 10 then [digitChar n] else natDigits fuel (n / 10) ++ [digitChar (n % 10)]

/-- Python's `"%d" % n` decimal rendering of an integer. -/
def intStr : Int → String
  | Int.ofNat m => String.mk (natDigits (m + 1) m)
  | Int.negSucc m => String.mk ('-' :: natDigits (m + 2) (m + 1))

/-- The message types accepted for incoming packets
(`assert(self.msg_type in ["start","data","ack","end"])`). -/
def incomingTypes : List String := ["start", "data", "ack", "end"]

/-- The `Packet` object of `TestHarness.py`. `full_packet`, `address` and
`start_seqno_base` are assigned unconditionally by `__init__`; the parsed
fields are `Option`s because the corresponding Python attributes are only
assigned once the `try` block reaches them (`none` = attribute never
assigned). `seqno` transiently holds the raw string (`Sum.inl`) between the
tuple unpack and the `int()` conversion, exactly as in the Python code, and
an `Int` (`Sum.inr`) afterwards. -/
structure Packet where
  full_packet : String
  address : Option Address
  start_seqno_base : Int
  msg_type : Option String
  seqno : Option (Sum String Int)
  checksum : Option String
  data : Option String
  bogon : Bool
deriving DecidableEq, Repr

/-- The body of `Packet.__init__` after a successful tuple unpack
`self.msg_type, self.seqno = pieces[0:2]`: `checksum` is the last piece
(`rest.getLastD sq` = `pieces[-1]`), `data` joins `pieces[2:-1]`, then
`int(self.seqno)` is attempted, then the message-type assertion, then
`int(self.checksum)`; the first failure leaves the fields assigned so far
and sets `bogon`. -/
def mkPacketAux (packet : String) (address : Option Address) (base : Int)
    (mt sq : String) (rest : List String) : Packet :=
  let cks := rest.getLastD sq
  let dt := pyJoinPipe rest.dropLast
  match pythonInt sq with
  | none => ⟨packet, address, base, some mt, some (Sum.inl sq), some cks, some dt, true⟩
  | some n =>
    if mt ∈ incomingTypes then
      match pythonInt cks with
      | none => ⟨packet, address, base, some mt, some (Sum.inr (n - base)), some cks, some dt, true⟩
      | some _ => ⟨packet, address, base, some mt, some (Sum.inr (n - base)), some cks, some dt, false⟩
    else ⟨packet, address, base, some mt, some (Sum.inr (n - base)), some cks, some dt, true⟩

/-- `Packet.__init__(packet, address, start_seqno_base)`. When the split
yields fewer than two pieces the tuple unpack raises before any parsed
field is assigned, so only the unconditional fields are set. -/
def mkPacket (packet : String) (address : Option Address) (base : Int) : Packet :=
  match pySplit packet with
  | mt :: sq :: rest => mkPacketAux packet address base mt sq rest
  | _ => ⟨packet, address, base, none, none, none, none, true⟩

/-- The integer sequence number of a packet, when it has one. -/
def seqnoOpt (p : Packet) : Option Int :=
  match p.seqno with
  | some (Sum.inr n) => some n
  | _ => none

/-- The serialized body from `Packet.update_packet`:
`"%s|%d|%s|" % (msg_type, seqno, data)` when the data is nonempty, else
`"%s|%d|" % (msg_type, seqno)`. -/
def genBody (mt : String) (sq : Int) (dt : String) : String :=
  if dt.length > 0 then mt ++ "|" ++ intStr sq ++ "|" ++ dt ++ "|"
  else mt ++ "|" ++ intStr sq ++ "|"

/-- `Packet.update_packet(msg_type, seqno, data, full_packet, update_checksum)`:
a no-op on a bogon packet; otherwise every argument passed as `none`
(Python `None`) defaults to the current field value, the body is
re-serialized, the checksum is recomputed via the external function `gen`
when `uc` is true and kept verbatim otherwise, and `full_packet` becomes
`body ++ checksum` unless a truthy (nonempty) `full_packet` override is
given. On a non-bogon packet the current fields are always assigned, so
the `getD` fallbacks for an unassigned field are unreachable. -/
def updatePacket (gen : String → String) (p : Packet) (omt : Option String)
    (osq : Option Int) (odt : Option String) (ofp : Option String) (uc : Bool) : Packet :=
  if p.bogon then p
  else
    let mt := omt.getD (p.msg_type.getD "")
    let sq := osq.getD ((seqnoOpt p).getD 0)
    let dt := odt.getD (p.data.getD "")
    let body := genBody mt sq dt
    let cks := if uc then gen body else p.checksum.getD ""
    { full_packet :=
        match ofp with
        | some f => if f ≠ "" then f else body ++ cks
        | none => body ++ cks
      address := p.address
      start_seqno_base := p.start_seqno_base
      msg_type := some mt
      seqno := some (Sum.inr sq)
      checksum := some cks
      data := some dt
      bogon := false }

/-- `Forwarder._send(packet)`: evaluates
`packet.update_packet(seqno=packet.seqno + self.start_seqno_base)` and then
`sendto(packet.full_packet, packet.address)`. Reading `packet.seqno` raises
`AttributeError` when the attribute was never assigned; adding an `Int` to a
string-valued `seqno` raises `TypeError`; reading an unassigned
`self.start_seqno_base` raises `AttributeError`. On success the result is
the mutated packet together with the datagram put on the wire. -/
def sendPacket (gen : String → String) (base : Option Int) (p : Packet) :
    Except String (Packet × String × Option Address) :=
  match p.seqno with
  | none => Except.error "AttributeError: seqno"
  | some sq =>
    match base with
    | none => Except.error "AttributeError: start_seqno_base"
    | some b =>
      match sq with
      | Sum.inl _ => Except.error "TypeError: cannot add str and int"
      | Sum.inr n =>
        let q := updatePacket gen p none (some (n + b)) none none true
        Except.ok (q, q.full_packet, q.address)

/-- The per-run mutable state of the `Forwarder` that `_tick` and
`handle_receive` touch. `start_seqno_base` is an `Option` because the
attribute is only assigned when the first valid sender packet is seen. -/
structure FState where
  test_state : String
  receiver_port : Int
  receiver_addr : Option Address
  sender_addr : Option Address
  start_seqno_base : Option Int
  in_queue : List Packet
  out_queue : List Packet
deriving DecidableEq, Repr

/-- The `for p in self.out_queue: self._send(p)` loop of `Forwarder._tick`:
returns the queue as left by the loop (sent packets mutated in place), the
datagrams transmitted so far in order, and the first exception, which
aborts the loop. -/
def flushQueue (gen : String → String) (base : Option Int) :
    List Packet → List Packet × List (String × Option Address) × Option String
  | [] => ([], [], none)
  | p :: rest =>
    match sendPacket gen base p with
    | Except.ok (q, bytes, addr) =>
      let r := flushQueue gen base rest
      (q :: r.1, (bytes, addr) :: r.2.1, r.2.2)
    | Except.error e => (p :: rest, [], some e)

/-- `Forwarder._tick()`: first calls the current test's tick handler
(modelled as an arbitrary state transformer, since the test case may mutate
the forwarder's queues), then flushes `out_queue`; `self.out_queue = []` is
reached only if no send raised. Returns the new state, the datagrams
transmitted, and the exception if one escaped. -/
def tickF (gen : String → String) (handler : FState → FState) (st : FState) :
    FState × List (String × Option Address) × Option String :=
  let st1 := handler st
  match flushQueue gen st1.start_seqno_base st1.out_queue with
  | (_, sent, none) => ({ st1 with out_queue := [] }, sent, none)
  | (left, sent, some e) => ({ st1 with out_queue := left }, sent, some e)

/-- The `if self.test_state == "NEW"` block of `Forwarder.handle_receive`:
for a datagram not from the receiver's port, probe-parse with baseline 0;
on a non-bogon parse record the baseline, the sender address, and move to
`READY`. The probe's destination argument `(None, None)` is a placeholder
never read, modelled as `none`. A non-bogon packet always has an integer
`seqno`, so the fallback branch is unreachable. -/
def learnStep (st : FState) (message : String) (address : Address) : FState :=
  if st.test_state = "NEW" ∧ address.2 ≠ st.receiver_port then
    let probe := mkPacket message none 0
    if probe.bogon = false then
      match seqnoOpt probe with
      | some n =>
        { st with start_seqno_base := some n, sender_addr := some address,
                  test_state := "READY" }
      | none => st
    else st
  else st

/-- `Forwarder.handle_receive(message, address)`: the `NEW`-state learning
step, then classification of the source against the two known endpoints.
A match builds a `Packet` destined to the opposite peer (reading
`self.start_seqno_base`, which raises `AttributeError` when unassigned),
appends it to `in_queue` and calls the test's `handle_packet` once; a
datagram from an unknown source raises `ValueError`. The returned `Nat`
counts the `handle_packet` invocations. -/
def handleReceive (st : FState) (message : String) (address : Address) :
    FState × Option String × Nat :=
  let st1 := learnStep st message address
  if some address = st1.receiver_addr then
    match st1.start_seqno_base with
    | some b =>
      ({ st1 with in_queue := st1.in_queue ++ [mkPacket message st1.sender_addr b] },
       none, 1)
    | none => (st1, some "AttributeError: start_seqno_base", 0)
  else if some address = st1.sender_addr then
    match st1.start_seqno_base with
    | some b =>
      ({ st1 with in_queue := st1.in_queue ++ [mkPacket message st1.receiver_addr b] },
       none, 1)
    | none => (st1, some "AttributeError: start_seqno_base", 0)
  else (st1, some "ValueError: Packet from unknown source", 0)

/-- Python exceptions relevant to `Forwarder.start`. -/
inductive PyExc where
  | keyboardInterrupt
  | systemExit
  | err (msg : String)
deriving DecidableEq, Repr

/-- How the main loop of `Forwarder.start` ended: the sender subprocess
exited and the final `self._tick()` completed, or an exception was raised
(run timeout, `ValueError` from `handle_receive`, operator interrupt, ...). -/
inductive LoopExit where
  | senderExited
  | raised (e : PyExc)
deriving DecidableEq, Repr

/-- Observable events of one `Forwarder.start` run after the main loop. -/
inductive RunEvent where
  | finalTick
  | killSender
  | killReceiver
  | resultCall
deriving DecidableEq, Repr

/-- The `try/except/finally` epilogue of `Forwarder.start`: the final
`self._tick()` sits inside the `try` after the `while` loop, so it runs
only when the loop ended normally; `except (KeyboardInterrupt, SystemExit)`
converts those to `exit()` (which raises `SystemExit`); the `finally` block
kills the sender if still running (`senderAlive` is the `poll()` check) and
unconditionally kills the receiver, before any exception reaches the
caller; `self.current_test.result(...)` runs only when nothing was raised. -/
def startEvents (le : LoopExit) (senderAlive : Bool) : List RunEvent × Option PyExc :=
  let tryPart : List RunEvent × Option PyExc :=
    match le with
    | LoopExit.senderExited => ([RunEvent.finalTick], none)
    | LoopExit.raised e => ([], some e)
  let afterExcept : Option PyExc :=
    match tryPart.2 with
    | some PyExc.keyboardInterrupt => some PyExc.systemExit
    | some PyExc.systemExit => some PyExc.systemExit
    | o => o
  let kills := (if senderAlive then [RunEvent.killSender] else []) ++ [RunEvent.killReceiver]
  match afterExcept with
  | none => (tryPart.1 ++ kills ++ [RunEvent.resultCall], none)
  | some e => (tryPart.1 ++ kills, some e)

example : pySplit "data|5|hello|123" = ["data", "5", "hello", "123"] := by decide

example : mkPacket "data|5|hello|123" none 5 =
    ⟨"data|5|hello|123", none, 5, some "data", some (Sum.inr 0), some "123",
     some "hello", false⟩ := by decide

example : (mkPacket "bogus" none 0).bogon = true := by decide

example : (mkPacket "data|5|he|llo|123" none 5).data = some "he|llo" := by decide

example : intStr (-37) = "-37" ∧ intStr 0 = "0" ∧ intStr 450 = "450" := by decide

example : pythonInt " -37 " = some (-37) ∧ pythonInt "x3" = none ∧
    pythonInt "" = none ∧ pythonInt "+7" = some 7 := by decide

theorem splitCh_ne_nil (l : List Char) (d : Char) : splitCh l d ≠ [] := by
  cases l with
  | nil => simp [splitCh]
  | cons c cs =>
    rcases h : splitCh cs d with _ | ⟨p, ps⟩ <;> simp only [splitCh, h]
    · simp
    · split <;> simp

theorem splitCh_no_sep (l : List Char) (d : Char) (h : d ∉ l) : splitCh l d = [l] := by
  induction l with
  | nil => rfl
  | cons c cs ih =>
    have h1 : d ∉ cs := fun hm => h (List.mem_cons_of_mem c hm)
    have h2 : ¬(c = d) := fun hc => h (by simp [hc])
    simp [splitCh, ih h1, h2]

theorem splitCh_prefix (a b : List Char) (d : Char) (h : d ∉ a) :
    splitCh (a ++ d :: b) d = a :: splitCh b d := by
  induction a with
  | nil =>
    rcases hs : splitCh b d with _ | ⟨p, ps⟩
    · exact absurd hs (splitCh_ne_nil b d)
    · simp [splitCh, hs]
  | cons c a' ih =>
    have h1 : d ∉ a' := fun hm => h (List.mem_cons_of_mem c hm)
    have h2 : ¬(c = d) := fun hc => h (by simp [hc])
    have hinner := ih h1
    rcases hs : splitCh b d with _ | ⟨p, ps⟩
    · exact absurd hs (splitCh_ne_nil b d)
    · rw [hs] at hinner
      simp [List.cons_append, splitCh, hinner, h2, hs]

theorem splitCh_last (a b : List Char) (d : Char) (h : d ∉ b) :
    splitCh (a ++ d :: b) d = splitCh a d ++ [b] := by
  induction a with
  | nil => simp [splitCh, splitCh_no_sep b d h]
  | cons c a' ih =>
    rcases hs : splitCh a' d with _ | ⟨p, ps⟩
    · exact absurd hs (splitCh_ne_nil a' d)
    · have hinner : splitCh (a' ++ d :: b) d = p :: (ps ++ [b]) := by
        rw [ih, hs]; rfl
      by_cases hc : c = d
      · subst hc
        simp [List.cons_append, splitCh, hinner, hs]
      · simp [List.cons_append, splitCh, hinner, hs, hc]

theorem joinCh_splitCh (l : List Char) (d : Char) : joinCh d (splitCh l d) = l := by
  induction l with
  | nil => rfl
  | cons c cs ih =>
    rcases hs : splitCh cs d with _ | ⟨p, ps⟩
    · exact absurd hs (splitCh_ne_nil cs d)
    · rw [hs] at ih
      by_cases hc : c = d
      · subst hc
        simp only [splitCh, hs, if_pos rfl]
        simpa [joinCh] using ih
      · cases ps with
        | nil =>
          simp only [splitCh, hs, if_neg hc, joinCh]
          simp only [joinCh] at ih
          rw [ih]
        | cons q qs =>
          simp only [splitCh, hs, if_neg hc, joinCh]
          simp only [joinCh] at ih
          rw [← ih]
          rfl

theorem digit_facts : ∀ d : Nat, d < 10 →
    (digitChar d).toNat = 48 + d ∧ isDigitCh (digitChar d) = true := by decide

theorem digitsVal_append (xs : List Char) (c : Char) :
    digitsVal (xs ++ [c]) = 10 * digitsVal xs + (c.toNat - 48) := by
  simp [digitsVal, List.foldl_append]

theorem natDigits_spec : ∀ fuel n : Nat, n < fuel →
    natDigits fuel n ≠ [] ∧ (natDigits fuel n).all isDigitCh = true ∧
    digitsVal (natDigits fuel n) = n := by
  intro fuel
  induction fuel with
  | zero => intro n h; omega
  | succ f ih =>
    intro n h
    by_cases h10 : n < 10
    · obtain ⟨hd1, hd2⟩ := digit_facts n h10
      refine ⟨by simp [natDigits, h10], by simp [natDigits, h10, hd2], ?_⟩
      simp only [natDigits, if_pos h10, digitsVal, List.foldl]
      omega
    · have hm : n / 10 < f := by
        have h1 : n / 10 < n := Nat.div_lt_self (by omega) (by omega)
        omega
      obtain ⟨ih1, ih2, ih3⟩ := ih (n / 10) hm
      obtain ⟨hd1, hd2⟩ := digit_facts (n % 10) (Nat.mod_lt n (by omega))
      refine ⟨by simp [natDigits, h10], ?_, ?_⟩
      · simp [natDigits, h10, List.all_append, ih2, hd2]
      · simp only [natDigits, if_neg h10]
        rw [digitsVal_append, ih3, hd1]
        omega

theorem dropWhile_space_eq_self (l : List Char) (h : ∀ c ∈ l, pyIsSpace c = false) :
    l.dropWhile pyIsSpace = l := by
  cases l with
  | nil => rfl
  | cons c cs => simp [List.dropWhile_cons, h c (by simp)]

theorem pyTrim_eq_self (l : List Char) (h : ∀ c ∈ l, pyIsSpace c = false) :
    pyTrim l = l := by
  have h2 : ∀ c ∈ l.reverse, pyIsSpace c = false := fun c hc =>
    h c (List.mem_reverse.mp hc)
  unfold pyTrim
  rw [dropWhile_space_eq_self l h, dropWhile_space_eq_self l.reverse h2,
      List.reverse_reverse]

theorem isDigit_not_space (c : Char) (h : isDigitCh c = true) : pyIsSpace c = false := by
  simp only [isDigitCh, decide_eq_true_eq] at h
  simp only [pyIsSpace, Bool.or_eq_false_iff, decide_eq_false_iff_not]
  omega

theorem pythonIntCore_digits (l : List Char) (h1 : l ≠ []) (h2 : l.all isDigitCh = true) :
    pythonIntCore l = some (digitsVal l) := by
  cases l with
  | nil => exact absurd rfl h1
  | cons c rest =>
    have hc : isDigitCh c = true := List.all_eq_true.mp h2 c (by simp)
    have hc48 : 48 ≤ c.toNat ∧ c.toNat ≤ 57 := by
      simpa [isDigitCh, decide_eq_true_eq] using hc
    have hplus : ¬(c = '+') := by
      intro hcc
      rw [hcc] at hc48
      have hv : ('+').toNat = 43 := rfl
      rw [hv] at hc48
      omega
    have hminus : ¬(c = '-') := by
      intro hcc
      rw [hcc] at hc48
      have hv : ('-').toNat = 45 := rfl
      rw [hv] at hc48
      omega
    simp [pythonIntCore, hplus, hminus, h2]

theorem pythonInt_mk_digits (L : List Char) (h1 : L ≠ []) (h2 : L.all isDigitCh = true) :
    pythonInt (String.mk L) = some (digitsVal L) := by
  have hns : ∀ c ∈ L, pyIsSpace c = false := fun c hc =>
    isDigit_not_space c (List.all_eq_true.mp h2 c hc)
  unfold pythonInt
  rw [show (String.mk L).data = L from rfl, pyTrim_eq_self L hns,
      pythonIntCore_digits L h1 h2]

theorem pythonInt_intStr (n : Int) : pythonInt (intStr n) = some n := by
  cases n with
  | ofNat m =>
    obtain ⟨h1, h2, h3⟩ := natDigits_spec (m + 1) m (by omega)
    rw [intStr, pythonInt_mk_digits (natDigits (m + 1) m) h1 h2, h3]
    rfl
  | negSucc m =>
    obtain ⟨h1, h2, h3⟩ := natDigits_spec (m + 2) (m + 1) (by omega)
    have hns : ∀ c ∈ ('-' :: natDigits (m + 2) (m + 1)), pyIsSpace c = false := by
      intro c hc
      rcases List.mem_cons.mp hc with h | h
      · subst h; decide
      · exact isDigit_not_space c (List.all_eq_true.mp h2 c h)
    have hcore : pythonIntCore ('-' :: natDigits (m + 2) (m + 1)) =
        some (-(digitsVal (natDigits (m + 2) (m + 1)) : Int)) := by
      simp [pythonIntCore, (by decide : ¬(('-' : Char) = '+')), h1, h2]
    rw [intStr]
    unfold pythonInt
    rw [show (String.mk ('-' :: natDigits (m + 2) (m + 1))).data =
          '-' :: natDigits (m + 2) (m + 1) from rfl,
        pyTrim_eq_self _ hns, hcore, h3]
    congr 1

theorem no_pipe_of_digits (l : List Char) (h : l.all isDigitCh = true) : '|' ∉ l :=
  fun hm => absurd (List.all_eq_true.mp h _ hm) (by decide)

theorem intStr_no_pipe (n : Int) : '|' ∉ (intStr n).data := by
  cases n with
  | ofNat m =>
    obtain ⟨_, h2, _⟩ := natDigits_spec (m + 1) m (by omega)
    exact no_pipe_of_digits _ h2
  | negSucc m =>
    obtain ⟨_, h2, _⟩ := natDigits_spec (m + 2) (m + 1) (by omega)
    intro hm
    rcases List.mem_cons.mp hm with h | h
    · exact absurd h (by decide)
    · exact no_pipe_of_digits _ h2 h

theorem strData_append : ∀ s t : String, (s ++ t).data = s.data ++ t.data
  | ⟨_⟩, ⟨_⟩ => rfl

theorem strMk_data (s : String) : String.mk s.data = s := rfl

theorem mkPacket_shape (s : String) (addr : Option Address) (b : Int)
    (h : (mkPacket s addr b).bogon = false) :
    ∃ mt sq rest a c, pySplit s = mt :: sq :: rest ∧ mt ∈ incomingTypes ∧
      pythonInt sq = some a ∧ pythonInt (rest.getLastD sq) = some c ∧
      mkPacket s addr b = ⟨s, addr, b, some mt, some (Sum.inr (a - b)),
        some (rest.getLastD sq), some (pyJoinPipe rest.dropLast), false⟩ := by
  rcases hsp : pySplit s with _ | ⟨mt, rest0⟩
  · simp [mkPacket, hsp] at h
  · rcases rest0 with _ | ⟨sq, rest⟩
    · simp [mkPacket, hsp] at h
    · rcases hsq : pythonInt sq with _ | a
      · simp [mkPacket, hsp, mkPacketAux, hsq] at h
      · by_cases hmt : mt ∈ incomingTypes
        · rcases hck : pythonInt (rest.getLastD sq) with _ | c
          · rw [List.getLastD_eq_getLast?] at hck
            simp [mkPacket, hsp, mkPacketAux, hsq, hmt, hck] at h
          · have hck2 := hck
            rw [List.getLastD_eq_getLast?] at hck2
            refine ⟨mt, sq, rest, a, c, rfl, hmt, hsq, hck, ?_⟩
            simp [mkPacket, hsp, mkPacketAux, hsq, hmt, hck2]
        · simp [mkPacket, hsp, mkPacketAux, hsq, hmt] at h

/-- C1: a raw datagram that splits on the delimiter into at least three
fields, whose first field is a recognized incoming type and whose second
and last fields parse as integers, parses with baseline `b` into a
non-bogon packet whose type is the first field, whose sequence number is
the second field's value minus `b`, whose checksum is the last field, and
whose payload is the middle fields rejoined with the delimiter. -/
theorem parse_wellformed (packet : String) (addr : Option Address) (b : Int)
    (mt sq : String) (rest : List String) (a c : Int)
    (hsplit : pySplit packet = mt :: sq :: rest) (hrest : rest ≠ [])
    (hmt : mt ∈ incomingTypes) (ha : pythonInt sq = some a)
    (hc : pythonInt (rest.getLastD sq) = some c) :
    mkPacket packet addr b = ⟨packet, addr, b, some mt, some (Sum.inr (a - b)),
      some (rest.getLastD sq), some (pyJoinPipe rest.dropLast), false⟩ := by
  have hc2 := hc
  rw [List.getLastD_eq_getLast?] at hc2
  simp [mkPacket, hsplit, mkPacketAux, ha, hmt, hc2]

/-- Witness for C1, the spec's Scenario A: `data|5|hello|123` with
baseline 5 parses to type `data`, seqno 0, payload `hello`, checksum `123`,
not bogon. -/
theorem parse_wellformed_witness :
    mkPacket "data|5|hello|123" none 5 =
      ⟨"data|5|hello|123", none, 5, some "data", some (Sum.inr 0), some "123",
       some "hello", false⟩ := by
  have h := parse_wellformed "data|5|hello|123" none 5 "data" "5" ["hello", "123"]
    5 123 (by decide) (by decide) (by decide) (by decide) (by decide)
  exact h.trans (by decide)

/-- C3: a packet whose first field is not a recognized incoming type
(for example `end-ack`), or whose last field does not parse as an integer,
is marked bogon; `__init__` catches every exception of the parse, so the
embedding `mkPacket` is a total function and no error reaches the caller. -/
theorem parse_bogon_on_invalid (s : String) (addr : Option Address) (b : Int)
    (h : (pySplit s).headD "" ∉ incomingTypes ∨
         pythonInt ((pySplit s).getLastD "") = none) :
    (mkPacket s addr b).bogon = true := by
  by_contra hb
  have hb' : (mkPacket s addr b).bogon = false := by
    cases hbv : (mkPacket s addr b).bogon
    · rfl
    · exact absurd hbv hb
  obtain ⟨mt, sq, rest, a, c, hsp, hmt, hsq, hck, _⟩ := mkPacket_shape s addr b hb'
  rcases h with h | h
  · rw [hsp] at h
    simp only [List.headD_cons] at h
    exact h hmt
  · rw [hsp, List.getLastD_cons, List.getLastD_cons] at h
    rw [h] at hck
    exact Option.noConfusion hck

/-- Witness for C3: an `end-ack` packet on the wire is marked bogon. -/
theorem parse_bogon_on_invalid_witness :
    (mkPacket "end-ack|1|x|5" none 0).bogon = true :=
  parse_bogon_on_invalid "end-ack|1|x|5" none 0 (Or.inl (by decide))

/-- Counterexample to C4 as stated: parsing `foo|5|x|12` fails validation
(`foo` is not an incoming type), so the packet is bogon, yet its
`msg_type` and `data` attributes were assigned before the assertion fired
and remain populated. -/
theorem bogon_fields_populated :
    (mkPacket "foo|5|x|12" none 0).bogon = true ∧
    (mkPacket "foo|5|x|12" none 0).msg_type = some "foo" ∧
    (mkPacket "foo|5|x|12" none 0).data = some "x" := by decide

/-- C4 (amended): on a bogon packet `update_packet` is a complete no-op:
every field, including the raw wire bytes `full_packet`, is left
unchanged, whatever overrides are supplied. -/
theorem update_bogon_noop (gen : String → String) (p : Packet) (omt : Option String)
    (osq : Option Int) (odt : Option String) (ofp : Option String) (uc : Bool)
    (h : p.bogon = true) :
    updatePacket gen p omt osq odt ofp uc = p := by
  simp [updatePacket, h]

/-- Witness for C4 (amended): updating the bogon packet parsed from
`bogus` changes nothing. -/
theorem update_bogon_noop_witness :
    updatePacket (fun _ => "0") (mkPacket "bogus" none 0) (some "data") (some 3)
      (some "x") none true = mkPacket "bogus" none 0 :=
  update_bogon_noop (fun _ => "0") (mkPacket "bogus" none 0) (some "data") (some 3)
    (some "x") none true (by decide)

theorem updatePacket_nonbogon (gen : String → String) (p : Packet)
    (mt0 : String) (n0 : Int) (dt0 cks0 : String)
    (omt : Option String) (osq : Option Int) (odt : Option String) (uc : Bool)
    (hbog : p.bogon = false) (hm : p.msg_type = some mt0)
    (hs : p.seqno = some (Sum.inr n0)) (hd : p.data = some dt0)
    (hc : p.checksum = some cks0) :
    updatePacket gen p omt osq odt none uc =
      ⟨genBody (omt.getD mt0) (osq.getD n0) (odt.getD dt0) ++
        (if uc then gen (genBody (omt.getD mt0) (osq.getD n0) (odt.getD dt0)) else cks0),
       p.address, p.start_seqno_base, some (omt.getD mt0),
       some (Sum.inr (osq.getD n0)),
       some (if uc then gen (genBody (omt.getD mt0) (osq.getD n0) (odt.getD dt0)) else cks0),
       some (odt.getD dt0), false⟩ := by
  simp [updatePacket, hbog, hm, hs, hd, hc, seqnoOpt]

/-- C5: on a non-bogon packet, `update_packet` defaults every field not
overridden to its current value, serializes the body as
`type|seqno|payload|` when the payload is nonempty and `type|seqno|`
otherwise, recomputes the checksum over the body via the external function
when `uc` is true and keeps the existing token verbatim otherwise, and
sets the wire bytes to body concatenated with checksum. -/
theorem update_packet_spec (gen : String → String) (p : Packet)
    (mt0 : String) (n0 : Int) (dt0 cks0 : String)
    (omt : Option String) (osq : Option Int) (odt : Option String) (uc : Bool)
    (hbog : p.bogon = false) (hm : p.msg_type = some mt0)
    (hs : p.seqno = some (Sum.inr n0)) (hd : p.data = some dt0)
    (hc : p.checksum = some cks0) :
    updatePacket gen p omt osq odt none uc =
      ⟨(if (odt.getD dt0).length > 0 then
          omt.getD mt0 ++ "|" ++ intStr (osq.getD n0) ++ "|" ++ odt.getD dt0 ++ "|"
        else omt.getD mt0 ++ "|" ++ intStr (osq.getD n0) ++ "|") ++
        (if uc then gen (if (odt.getD dt0).length > 0 then
            omt.getD mt0 ++ "|" ++ intStr (osq.getD n0) ++ "|" ++ odt.getD dt0 ++ "|"
          else omt.getD mt0 ++ "|" ++ intStr (osq.getD n0) ++ "|") else cks0),
       p.address, p.start_seqno_base,
       some (omt.getD mt0), some (Sum.inr (osq.getD n0)),
       some (if uc then gen (if (odt.getD dt0).length > 0 then
            omt.getD mt0 ++ "|" ++ intStr (osq.getD n0) ++ "|" ++ odt.getD dt0 ++ "|"
          else omt.getD mt0 ++ "|" ++ intStr (osq.getD n0) ++ "|") else cks0),
       some (odt.getD dt0), false⟩ := by
  exact (updatePacket_nonbogon gen p mt0 n0 dt0 cks0 omt osq odt uc
    hbog hm hs hd hc).trans (by simp [genBody])

/-- Witness for C5: overriding seqno and payload (payload containing the
delimiter) with `update_checksum = false` keeps the checksum token `123`
verbatim and serializes `data|7|wo|rld|123`. -/
theorem update_packet_spec_witness :
    updatePacket (fun _ => "77") (mkPacket "data|5|hello|123" none 5) none (some 7)
      (some "wo|rld") none false =
      ⟨"data|7|wo|rld|123", none, 5, some "data", some (Sum.inr 7), some "123",
       some "wo|rld", false⟩ := by
  have h := update_packet_spec (fun _ => "77") (mkPacket "data|5|hello|123" none 5)
    "data" 0 "hello" "123" none (some 7) (some "wo|rld") false
    (by decide) (by decide) (by decide) (by decide) (by decide)
  exact h.trans (by decide)

/-- C10: `_send` on a non-bogon packet re-absolutizes the sequence number
and calls `update_packet` with the default `update_checksum=True`, so the
bytes put on the wire are always `body ++ gen body` for the freshly
serialized body — independent of whatever checksum token the packet
carried before. -/
theorem send_recomputes_checksum (gen : String → String) (b : Int) (p : Packet)
    (mt dt cks : String) (n : Int)
    (hbog : p.bogon = false) (hm : p.msg_type = some mt)
    (hs : p.seqno = some (Sum.inr n)) (hd : p.data = some dt)
    (hc : p.checksum = some cks) :
    sendPacket gen (some b) p =
      Except.ok (updatePacket gen p none (some (n + b)) none none true,
        genBody mt (n + b) dt ++ gen (genBody mt (n + b) dt), p.address) := by
  simp [sendPacket, hs, updatePacket, hbog, hm, hd, hc, seqnoOpt]

/-- Witness for C10: a packet parsed from `ack|9|42` (relative seqno 7 at
baseline 2) is transmitted as `ack|9|` plus the recomputed checksum, not
the stored token `42`. -/
theorem send_recomputes_checksum_witness :
    sendPacket (fun _ => "5") (some 2) (mkPacket "ack|9|42" none 2) =
      Except.ok (updatePacket (fun _ => "5") (mkPacket "ack|9|42" none 2) none
        (some 9) none none true, "ack|9|5", none) := by
  have h := send_recomputes_checksum (fun _ => "5") 2 (mkPacket "ack|9|42" none 2)
    "ack" "" "42" 7 (by decide) (by decide) (by decide) (by decide) (by decide)
  exact h.trans rfl

theorem pySplit_concat (mt S dt G : String)
    (hm : '|' ∉ mt.data) (hS : '|' ∉ S.data) (hG : '|' ∉ G.data) :
    pySplit (mt ++ "|" ++ S ++ "|" ++ dt ++ "|" ++ G) =
      mt :: S :: ((splitCh dt.data '|').map String.mk ++ [G]) := by
  have hp : ("|" : String).data = ['|'] := rfl
  have hdata : (mt ++ "|" ++ S ++ "|" ++ dt ++ "|" ++ G).data =
      mt.data ++ '|' :: (S.data ++ '|' :: (dt.data ++ '|' :: G.data)) := by
    simp [strData_append, hp]
  unfold pySplit
  rw [hdata, splitCh_prefix _ _ _ hm, splitCh_prefix _ _ _ hS,
      splitCh_last _ _ _ hG]
  simp [strMk_data]

theorem pySplit_concat_empty (mt S G : String)
    (hm : '|' ∉ mt.data) (hS : '|' ∉ S.data) (hG : '|' ∉ G.data) :
    pySplit (mt ++ "|" ++ S ++ "|" ++ G) = [mt, S, G] := by
  have hp : ("|" : String).data = ['|'] := rfl
  have hdata : (mt ++ "|" ++ S ++ "|" ++ G).data =
      mt.data ++ '|' :: (S.data ++ '|' :: G.data) := by
    simp [strData_append, hp]
  unfold pySplit
  rw [hdata, splitCh_prefix _ _ _ hm, splitCh_prefix _ _ _ hS,
      splitCh_no_sep _ _ hG]
  simp [strMk_data]

theorem pyJoin_splitStr (t : String) :
    pyJoinPipe ((splitCh t.data '|').map String.mk) = t := by
  unfold pyJoinPipe
  rw [List.map_map]
  have h : (String.data ∘ String.mk) = id := rfl
  rw [h, List.map_id, joinCh_splitCh]

theorem incoming_no_pipe (mt : String) (h : mt ∈ incomingTypes) : '|' ∉ mt.data := by
  simp [incomingTypes] at h
  rcases h with rfl | rfl | rfl | rfl <;> decide

theorem strLength_pos (s : String) (h : ¬(s = "")) : s.length > 0 := by
  cases s with
  | mk l =>
    cases l with
    | nil => exact absurd rfl h
    | cons c cs => simp [String.length]

theorem mkPacketAux_fields (packet : String) (addr : Option Address) (base : Int)
    (mt sq : String) (rest : List String) (a : Int)
    (hsq : pythonInt sq = some a) (hmt : mt ∈ incomingTypes) :
    (mkPacketAux packet addr base mt sq rest).msg_type = some mt ∧
    (mkPacketAux packet addr base mt sq rest).seqno = some (Sum.inr (a - base)) ∧
    (mkPacketAux packet addr base mt sq rest).data = some (pyJoinPipe rest.dropLast) := by
  rcases hck : pythonInt (rest.getLastD sq) with _ | c <;>
    rw [List.getLastD_eq_getLast?] at hck <;>
    simp [mkPacketAux, hsq, hmt, hck]

/-- C2: parsing a non-bogon packet, serializing it via `update_packet` with
no overrides, and re-parsing the produced wire bytes (with baseline 0,
since the serialized sequence number is the session-relative one)
reproduces the message type, sequence number and payload — also when the
payload contains embedded delimiters. The external checksum function is
assumed to produce delimiter-free tokens, as the spec's decimal-integer
token contract guarantees. -/
theorem parse_serialize_roundtrip (gen : String → String) (s : String)
    (addr addr2 : Option Address) (b : Int)
    (hg : ∀ t, '|' ∉ (gen t).data)
    (hbog : (mkPacket s addr b).bogon = false) :
    (mkPacket (updatePacket gen (mkPacket s addr b) none none none none true).full_packet
        addr2 0).msg_type = (mkPacket s addr b).msg_type ∧
    (mkPacket (updatePacket gen (mkPacket s addr b) none none none none true).full_packet
        addr2 0).seqno = (mkPacket s addr b).seqno ∧
    (mkPacket (updatePacket gen (mkPacket s addr b) none none none none true).full_packet
        addr2 0).data = (mkPacket s addr b).data := by
  obtain ⟨mt, sq, rest, a, c, hsp, hmt, hsq, hck, hpkt⟩ := mkPacket_shape s addr b hbog
  have hm : (mkPacket s addr b).msg_type = some mt := by rw [hpkt]
  have hs2 : (mkPacket s addr b).seqno = some (Sum.inr (a - b)) := by rw [hpkt]
  have hd : (mkPacket s addr b).data = some (pyJoinPipe rest.dropLast) := by rw [hpkt]
  have hc2 : (mkPacket s addr b).checksum = some (rest.getLastD sq) := by rw [hpkt]
  have hq := updatePacket_nonbogon gen (mkPacket s addr b) mt (a - b)
    (pyJoinPipe rest.dropLast) (rest.getLastD sq) none none none true hbog hm hs2 hd hc2
  set dt := pyJoinPipe rest.dropLast with hdtdef
  set S := intStr (a - b) with hSdef
  have hfull : (updatePacket gen (mkPacket s addr b) none none none none true).full_packet =
      genBody mt (a - b) dt ++ gen (genBody mt (a - b) dt) := by
    rw [hq]
    simp
  set G := gen (genBody mt (a - b) dt) with hGdef
  have hmp : '|' ∉ mt.data := incoming_no_pipe mt hmt
  have hSp : '|' ∉ S.data := by rw [hSdef]; exact intStr_no_pipe (a - b)
  have hGp : '|' ∉ G.data := hg _
  have hS : pythonInt S = some (a - b) := by rw [hSdef]; exact pythonInt_intStr (a - b)
  by_cases hdt : dt = ""
  · have hbody : genBody mt (a - b) dt = mt ++ "|" ++ S ++ "|" := by
      simp [genBody, hdt, hSdef]
    have hresplit : pySplit (genBody mt (a - b) dt ++ G) = [mt, S, G] := by
      rw [hbody]
      exact pySplit_concat_empty mt S G hmp hSp hGp
    have hmk : mkPacket (genBody mt (a - b) dt ++ G) addr2 0 =
        mkPacketAux (genBody mt (a - b) dt ++ G) addr2 0 mt S [G] := by
      simp [mkPacket, hresplit]
    obtain ⟨f1, f2, f3⟩ := mkPacketAux_fields (genBody mt (a - b) dt ++ G) addr2 0
      mt S [G] (a - b) hS hmt
    refine ⟨?_, ?_, ?_⟩
    · rw [hfull, hmk, f1, hm]
    · rw [hfull, hmk, f2, hs2]
      simp
    · rw [hfull, hmk, f3, hd, hdt]
      rfl
  · have hlen : dt.length > 0 := strLength_pos dt hdt
    have hbody : genBody mt (a - b) dt = mt ++ "|" ++ S ++ "|" ++ dt ++ "|" := by
      simp [genBody, hlen, hSdef]
    have hresplit : pySplit (genBody mt (a - b) dt ++ G) =
        mt :: S :: ((splitCh dt.data '|').map String.mk ++ [G]) := by
      rw [hbody]
      exact pySplit_concat mt S dt G hmp hSp hGp
    have hmk : mkPacket (genBody mt (a - b) dt ++ G) addr2 0 =
        mkPacketAux (genBody mt (a - b) dt ++ G) addr2 0 mt S
          ((splitCh dt.data '|').map String.mk ++ [G]) := by
      simp [mkPacket, hresplit]
    obtain ⟨f1, f2, f3⟩ := mkPacketAux_fields (genBody mt (a - b) dt ++ G) addr2 0
      mt S ((splitCh dt.data '|').map String.mk ++ [G]) (a - b) hS hmt
    refine ⟨?_, ?_, ?_⟩
    · rw [hfull, hmk, f1, hm]
    · rw [hfull, hmk, f2, hs2]
      simp
    · rw [hfull, hmk, f3, hd]
      have hdrop : ((splitCh dt.data '|').map String.mk ++ [G]).dropLast =
          (splitCh dt.data '|').map String.mk := by simp
      rw [hdrop, pyJoin_splitStr]

/-- Witness for C2, the spec's Scenario B payload: `data|5|he|llo|123`
(payload `he|llo` containing the delimiter) survives
parse, then update with no overrides, then serialize, then re-parse. -/
theorem parse_serialize_roundtrip_witness :
    (mkPacket (updatePacket (fun _ => "99") (mkPacket "data|5|he|llo|123" none 5)
        none none none none true).full_packet none 0).data =
      (mkPacket "data|5|he|llo|123" none 5).data ∧
    (mkPacket "data|5|he|llo|123" none 5).data = some "he|llo" := by
  constructor
  · exact (parse_serialize_roundtrip (fun _ => "99") "data|5|he|llo|123" none none 5
      (by intro t; show '|' ∉ ("99" : String).data; decide) (by decide)).2.2
  · decide

theorem seqnoOpt_eq_some (p : Packet) (n : Int) (h : seqnoOpt p = some n) :
    p.seqno = some (Sum.inr n) := by
  unfold seqnoOpt at h
  rcases hs : p.seqno with _ | sq
  · rw [hs] at h
    exact Option.noConfusion h
  · rcases sq with s | m
    · rw [hs] at h
      exact Option.noConfusion h
    · rw [hs] at h
      simp only [Option.some.injEq] at h
      rw [h]

theorem updatePacket_address (gen : String → String) (p : Packet)
    (omt : Option String) (osq : Option Int) (odt : Option String)
    (ofp : Option String) (uc : Bool) :
    (updatePacket gen p omt osq odt ofp uc).address = p.address := by
  unfold updatePacket
  split <;> rfl

theorem flushQueue_ok (gen : String → String) (b : Int) :
    ∀ l : List Packet, (∀ p ∈ l, (seqnoOpt p).isSome) →
    (flushQueue gen (some b) l).2.1 =
      l.map (fun p => ((updatePacket gen p none (some ((seqnoOpt p).getD 0 + b))
        none none true).full_packet, p.address)) ∧
    (flushQueue gen (some b) l).2.2 = none := by
  intro l
  induction l with
  | nil => intro h; simp [flushQueue]
  | cons p rest ih =>
    intro h
    have hp : (seqnoOpt p).isSome := h p (by simp)
    obtain ⟨n, hn⟩ := Option.isSome_iff_exists.mp hp
    have hseq := seqnoOpt_eq_some p n hn
    have hrest := ih (fun q hq => h q (by simp [hq]))
    constructor
    · simp [flushQueue, sendPacket, hseq, hrest.1, hn, updatePacket_address]
    · simp [flushQueue, sendPacket, hseq, hrest.2]

/-- C6 (amended): `_tick` first runs the test case's tick handler, then —
provided the baseline is set and every queued packet carries a parsed
integer sequence number — transmits every packet of the (post-handler)
outbound queue in insertion order, each re-absolutized by adding the
session baseline back, and leaves the outbound queue empty, all in one
atomic flush per tick invocation. -/
theorem tick_flushes_queue (gen : String → String) (handler : FState → FState)
    (st : FState) (b : Int)
    (hb : (handler st).start_seqno_base = some b)
    (hq : ∀ p ∈ (handler st).out_queue, (seqnoOpt p).isSome) :
    tickF gen handler st =
      ({ handler st with out_queue := [] },
       (handler st).out_queue.map (fun p =>
         ((updatePacket gen p none (some ((seqnoOpt p).getD 0 + b)) none none
           true).full_packet, p.address)),
       none) := by
  obtain ⟨h1, h2⟩ := flushQueue_ok gen b (handler st).out_queue hq
  simp only [tickF]
  rw [hb]
  rcases hf : flushQueue gen (some b) (handler st).out_queue with ⟨left, sent, err⟩
  rw [hf] at h1 h2
  simp only at h1 h2
  subst h2
  simp [h1]

/-- Counterexample to C6 as stated: a tick with the bogon packet parsed
from `bogus` in the outbound queue does not send it and does not clear the
queue: `_send` evaluates `packet.seqno`, an attribute the failed parse
never assigned, so the flush loop raises and `self.out_queue = []` is
never reached. -/
theorem tick_aborts_on_unparsed_seqno :
    (tickF (fun _ => "0") id
      ⟨"READY", 34124, some ("127.0.0.1", 34124), some ("127.0.0.1", 40000),
       some 0, [], [mkPacket "bogus" none 0]⟩).2.2 =
      some "AttributeError: seqno" ∧
    (tickF (fun _ => "0") id
      ⟨"READY", 34124, some ("127.0.0.1", 34124), some ("127.0.0.1", 40000),
       some 0, [], [mkPacket "bogus" none 0]⟩).2.1 = [] ∧
    (tickF (fun _ => "0") id
      ⟨"READY", 34124, some ("127.0.0.1", 34124), some ("127.0.0.1", 40000),
       some 0, [], [mkPacket "bogus" none 0]⟩).1.out_queue =
      [mkPacket "bogus" none 0] := by
  decide

/-- Witness for C6 (amended): one queued well-formed packet (`ack|7|21`
at baseline 2, relative seqno 5) is flushed as `ack|7|` plus the
recomputed checksum and the queue is left empty. -/
theorem tick_flushes_queue_witness :
    tickF (fun _ => "9") id
      ⟨"READY", 34124, some ("127.0.0.1", 34124), some ("127.0.0.1", 40000),
       some 2, [], [mkPacket "ack|7|21" none 2]⟩ =
      (⟨"READY", 34124, some ("127.0.0.1", 34124), some ("127.0.0.1", 40000),
        some 2, [], []⟩, [("ack|7|9", none)], none) := by
  have h := tick_flushes_queue (fun _ => "9") id
    ⟨"READY", 34124, some ("127.0.0.1", 34124), some ("127.0.0.1", 40000),
     some 2, [], [mkPacket "ack|7|21" none 2]⟩ 2 (by decide) (by decide)
  exact h.trans (by decide)

theorem learnStep_in_queue (st : FState) (msg : String) (addr : Address) :
    (learnStep st msg addr).in_queue = st.in_queue := by
  simp only [learnStep]
  split
  · split
    · split <;> rfl
    · rfl
  · rfl

theorem handleReceive_preserves (st : FState) (msg : String) (addr : Address) :
    (handleReceive st msg addr).1.start_seqno_base =
      (learnStep st msg addr).start_seqno_base ∧
    (handleReceive st msg addr).1.sender_addr = (learnStep st msg addr).sender_addr ∧
    (handleReceive st msg addr).1.test_state = (learnStep st msg addr).test_state := by
  simp only [handleReceive]
  split
  · split <;> simp
  · split
    · split <;> simp
    · simp

/-- C7: while the run state is `NEW`, a datagram from a port other than the
receiver's that parses non-bogon with baseline 0 makes `handle_receive`
record the sequence baseline as that packet's absolute sequence number
(its parsed seqno at baseline 0), record the sender address as the
datagram's source, and move to `READY`; a datagram from the receiver port,
or one that parses bogon, changes none of the three. -/
theorem handle_receive_new_state (st : FState) (msg : String) (addr : Address)
    (hnew : st.test_state = "NEW") :
    (addr.2 ≠ st.receiver_port → (mkPacket msg none 0).bogon = false →
      (seqnoOpt (mkPacket msg none 0)).isSome ∧
      (handleReceive st msg addr).1.start_seqno_base = seqnoOpt (mkPacket msg none 0) ∧
      (handleReceive st msg addr).1.sender_addr = some addr ∧
      (handleReceive st msg addr).1.test_state = "READY") ∧
    (addr.2 = st.receiver_port ∨ (mkPacket msg none 0).bogon = true →
      (handleReceive st msg addr).1.start_seqno_base = st.start_seqno_base ∧
      (handleReceive st msg addr).1.sender_addr = st.sender_addr ∧
      (handleReceive st msg addr).1.test_state = st.test_state) := by
  obtain ⟨hp1, hp2, hp3⟩ := handleReceive_preserves st msg addr
  constructor
  · intro hport hbog
    obtain ⟨mt, sq, rest, a, c, hsp, hmt, hsq, hck, hpkt⟩ :=
      mkPacket_shape msg none 0 hbog
    have hsome : seqnoOpt (mkPacket msg none 0) = some (a - 0) := by
      rw [hpkt]
      rfl
    have hlearn : learnStep st msg addr =
        { st with start_seqno_base := some (a - 0), sender_addr := some addr,
                  test_state := "READY" } := by
      simp [learnStep, hnew, hport, hbog, hsome]
    refine ⟨?_, ?_, ?_, ?_⟩
    · rw [hsome]
      rfl
    · rw [hp1, hlearn, hsome]
    · rw [hp2, hlearn]
    · rw [hp3, hlearn]
  · intro hcase
    have hlearn : learnStep st msg addr = st := by
      rcases hcase with hport | hbog
      · simp [learnStep, hport]
      · by_cases hcond : st.test_state = "NEW" ∧ addr.2 ≠ st.receiver_port
        · simp [learnStep, hcond, hbog]
        · simp [learnStep, hcond]
    exact ⟨by rw [hp1, hlearn], by rw [hp2, hlearn], by rw [hp3, hlearn]⟩

/-- Witness for C7: in state `NEW` (receiver port 34124, nothing learned),
a datagram `start|17|w|5` from port 40000 sets the baseline to 17, the
sender address to the source, and the state to `READY`. -/
theorem handle_receive_new_state_witness :
    (handleReceive ⟨"NEW", 34124, some ("127.0.0.1", 34124), none, none, [], []⟩
      "start|17|w|5" ("127.0.0.1", 40000)).1.start_seqno_base = some 17 ∧
    (handleReceive ⟨"NEW", 34124, some ("127.0.0.1", 34124), none, none, [], []⟩
      "start|17|w|5" ("127.0.0.1", 40000)).1.sender_addr =
      some ("127.0.0.1", 40000) ∧
    (handleReceive ⟨"NEW", 34124, some ("127.0.0.1", 34124), none, none, [], []⟩
      "start|17|w|5" ("127.0.0.1", 40000)).1.test_state = "READY" := by
  have h := (handle_receive_new_state
    ⟨"NEW", 34124, some ("127.0.0.1", 34124), none, none, [], []⟩
    "start|17|w|5" ("127.0.0.1", 40000) rfl).1 (by decide) (by decide)
  exact ⟨h.2.1.trans (by decide), h.2.2.1, h.2.2.2⟩

/-- C8 (amended): after the `NEW`-state learning step, a datagram whose
source matches neither known endpoint raises `ValueError` (run-fatal),
appends nothing and never calls `handle_packet`; conversely — provided the
sequence baseline attribute is set — a datagram matching the receiver
(resp. sender) address is parsed, addressed to the opposite peer, appended
to `in_queue`, and `handle_packet` fires exactly once. -/
theorem handle_receive_classification (st : FState) (msg : String) (addr : Address) :
    (some addr ≠ (learnStep st msg addr).receiver_addr →
     some addr ≠ (learnStep st msg addr).sender_addr →
      handleReceive st msg addr =
        (learnStep st msg addr, some "ValueError: Packet from unknown source", 0) ∧
      (learnStep st msg addr).in_queue = st.in_queue) ∧
    (∀ b, (learnStep st msg addr).start_seqno_base = some b →
      (some addr = (learnStep st msg addr).receiver_addr →
        handleReceive st msg addr =
          ({ learnStep st msg addr with
             in_queue := (learnStep st msg addr).in_queue ++
               [mkPacket msg (learnStep st msg addr).sender_addr b] }, none, 1)) ∧
      (some addr ≠ (learnStep st msg addr).receiver_addr →
       some addr = (learnStep st msg addr).sender_addr →
        handleReceive st msg addr =
          ({ learnStep st msg addr with
             in_queue := (learnStep st msg addr).in_queue ++
               [mkPacket msg (learnStep st msg addr).receiver_addr b] }, none, 1))) := by
  refine ⟨fun h1 h2 => ⟨?_, learnStep_in_queue st msg addr⟩, fun b hb => ⟨?_, ?_⟩⟩
  · simp [handleReceive, h1, h2]
  · intro h1
    simp only [handleReceive]
    rw [if_pos h1, hb]
  · intro h1 h2
    simp only [handleReceive]
    rw [if_neg h1, if_pos h2, hb]

/-- Counterexample to C8 as stated: in a fresh `NEW` run where the baseline
was never learned, a datagram from the known receiver address is NOT
appended to the inbound queue and `handle_packet` does not fire: building
the forwarded packet reads the unset `start_seqno_base` attribute, which
raises, so the claimed append-and-callback behavior fails for a datagram
matching a known endpoint. -/
theorem receiver_datagram_before_baseline_crashes :
    (handleReceive ⟨"NEW", 34124, some ("127.0.0.1", 34124), none, none, [], []⟩
      "start|17|w|5" ("127.0.0.1", 34124)).2.1 =
      some "AttributeError: start_seqno_base" ∧
    (handleReceive ⟨"NEW", 34124, some ("127.0.0.1", 34124), none, none, [], []⟩
      "start|17|w|5" ("127.0.0.1", 34124)).1.in_queue = [] ∧
    (handleReceive ⟨"NEW", 34124, some ("127.0.0.1", 34124), none, none, [], []⟩
      "start|17|w|5" ("127.0.0.1", 34124)).2.2 = 0 ∧
    some (("127.0.0.1", 34124) : Address) =
      (⟨"NEW", 34124, some ("127.0.0.1", 34124), none, none, [], []⟩ :
        FState).receiver_addr := by
  decide

/-- Witness for C8 (amended): with the baseline learned (base 17), a
datagram from the known sender address is appended to the inbound queue,
destined to the receiver, and `handle_packet` fires exactly once. -/
theorem handle_receive_classification_witness :
    handleReceive ⟨"READY", 34124, some ("127.0.0.1", 34124),
        some ("127.0.0.1", 40000), some 17, [], []⟩
      "data|18|hi|77" ("127.0.0.1", 40000) =
      (⟨"READY", 34124, some ("127.0.0.1", 34124), some ("127.0.0.1", 40000),
        some 17, [mkPacket "data|18|hi|77" (some ("127.0.0.1", 34124)) 17], []⟩,
       none, 1) := by
  have h := ((handle_receive_classification
    ⟨"READY", 34124, some ("127.0.0.1", 34124), some ("127.0.0.1", 40000),
     some 17, [], []⟩ "data|18|hi|77" ("127.0.0.1", 40000)).2 17
    (by decide)).2 (by decide) (by decide)
  exact h.trans (by decide)

/-- Counterexample to C9 as stated: when the main loop exits via the run
timeout exception, no final tick flush happens — the final `self._tick()`
sits inside the `try` block after the loop body, so it runs only on a
normal exit — although both subprocess kills still run before the error
surfaces. -/
theorem timeout_skips_final_tick :
    RunEvent.finalTick ∉
      (startEvents (LoopExit.raised (PyExc.err "Test timed out!")) true).1 ∧
    (startEvents (LoopExit.raised (PyExc.err "Test timed out!")) true).2 =
      some (PyExc.err "Test timed out!") ∧
    RunEvent.killSender ∈
      (startEvents (LoopExit.raised (PyExc.err "Test timed out!")) true).1 ∧
    RunEvent.killReceiver ∈
      (startEvents (LoopExit.raised (PyExc.err "Test timed out!")) true).1 := by
  decide

/-- C9 (amended): on every exit of the main loop — normal or exceptional,
including timeout, unknown-origin `ValueError` and operator interruption —
the `finally` block kills the receiver unconditionally and the sender when
still running, and any raised error is surfaced only after those kills; the
final tick flush happens exactly on the normal (sender-exited) exit. -/
theorem start_cleanup_guarantee (le : LoopExit) (alive : Bool) :
    RunEvent.killReceiver ∈ (startEvents le alive).1 ∧
    (alive = true → RunEvent.killSender ∈ (startEvents le alive).1) ∧
    (RunEvent.finalTick ∈ (startEvents le alive).1 ↔ le = LoopExit.senderExited) ∧
    ((startEvents le alive).2 = none ↔ le = LoopExit.senderExited) := by
  rcases le with _ | e
  · cases alive <;> decide
  · rcases e with _ | _ | msg <;> cases alive <;> simp [startEvents]

/-- Witness for C9 (amended): on a normal exit with the sender still
running at cleanup time, the sender kill is among the run events. -/
theorem start_cleanup_guarantee_witness :
    RunEvent.killSender ∈ (startEvents LoopExit.senderExited true).1 :=
  (start_cleanup_guarantee LoopExit.senderExited true).2.1 rfl
